import Mathlib

/-!
Verification development for the PDF page content-stream interpreter of
`viewer.py` (class `pypdfProcessor` and its helpers).  The Python code is
shallowly embedded: mutable objects become Lean values threaded through
explicit state, Python floats become `ℚ`, byte strings become `List ℕ`,
exceptions become `Except Unit` or `Option`, and external collaborators
(filter codecs, text-metrics providers, the wx toolkit) become parameters
recorded in an environment structure.  The Python `str`/`bytes` distinction
is not modelled: all PDF string operands are byte lists.
-/

set_option maxRecDepth 4000

namespace Viewer

/-- Python `int(q)` on a float: truncation toward zero. -/
def pyInt (q : ℚ) : ℤ := if q < 0 then ⌈q⌉ else ⌊q⌋

/-- Python 3 `round(q)` to an integer: round half to even. -/
def pyRound (q : ℚ) : ℤ :=
  let f : ℤ := ⌊q⌋
  let r : ℚ := q - f
  if r < 1/2 then f
  else if 1/2 < r then f + 1
  else if Even f then f else f + 1

/-- wx.Colour with integer channels (no alpha). -/
structure Colour where
  red : ℤ
  green : ℤ
  blue : ℤ
  deriving DecidableEq, Repr

/-- wx.Colour with an alpha channel, as produced by GetFillRGBA/GetStrokeRGBA. -/
structure ColourA where
  red : ℤ
  green : ℤ
  blue : ℤ
  alpha : ℚ
  deriving DecidableEq, Repr

/-- Line cap styles (wx.CAP_BUTT / wx.CAP_ROUND / wx.CAP_PROJECTING). -/
inductive CapStyle where
  | butt
  | round
  | projecting
  deriving DecidableEq, Repr

/-- Line join styles (wx.JOIN_MITER / wx.JOIN_ROUND / wx.JOIN_BEVEL). -/
inductive JoinStyle where
  | miter
  | round
  | bevel
  deriving DecidableEq, Repr

/-- Six-component affine text matrix [a, b, c, d, e, f], stored in
`pdfState.textMatrix` and `pdfState.textLineMatrix` as a Python list. -/
structure TextMat where
  a : ℚ
  b : ℚ
  c : ℚ
  d : ℚ
  e : ℚ
  f : ℚ
  deriving DecidableEq, Repr

/-- The identity text matrix `[1, 0, 0, 1, 0, 0]`. -/
def TextMat.id : TextMat := ⟨1, 0, 0, 1, 0, 0⟩

/-- Path construction operators recorded in the accumulated path
(`m c l re v y h`). -/
inductive PathKind where
  | m
  | c
  | l
  | re
  | v
  | y
  | h
  deriving DecidableEq, Repr

/-- One accumulated path entry `[[float(n) for n in operand], operator]`. -/
structure PathSeg where
  coords : List ℚ
  kind : PathKind
  deriving DecidableEq, Repr

/-- Embedding of the `pdfState` object (`pdfState.__init__`), the per-scope
graphics and text state.  `clippingRuleCap` models the dynamically created
attribute `ClippingRule` assigned in `SetClippingPath`; `clippingRuleInit`
models the `clippingRule` attribute from `__init__` that is never written
afterwards.  `isStar` of the stored rule is true for `W*`. -/
structure pdfState where
  lineWidth : ℚ
  lineCapStyle : CapStyle
  lineJoinStyle : JoinStyle
  lineDashArray : List ℤ
  lineDashPhase : ℤ
  miterLimit : Option ℚ
  automaticStrokeAdjustment : Bool
  overprint : Bool
  overprintNS : Bool
  overprintMode : ℤ
  strokeTransparency : ℚ
  strokeRGB : Colour
  fillTransparency : ℚ
  fillRGB : Colour
  fillMode : Option Unit
  clippingPath : Option (List (List PathSeg))
  clippingRuleInit : Option Unit
  clippingRuleCap : Option Bool
  textMatrix : TextMat
  textLineMatrix : TextMat
  charSpacing : ℚ
  wordSpacing : ℚ
  horizontalScaling : ℚ
  leading : Option ℚ
  font : Option String
  fontSize : Option ℚ
  textRenderMode : Option Unit
  textRise : ℚ
  deriving DecidableEq, Repr

/-- Default state built by `pdfState.__init__`. -/
def pdfState.init : pdfState where
  lineWidth := 1
  lineCapStyle := .butt
  lineJoinStyle := .miter
  lineDashArray := []
  lineDashPhase := 0
  miterLimit := none
  automaticStrokeAdjustment := false
  overprint := false
  overprintNS := false
  overprintMode := 0
  strokeTransparency := 1
  strokeRGB := ⟨0, 0, 0⟩
  fillTransparency := 1
  fillRGB := ⟨0, 0, 0⟩
  fillMode := none
  clippingPath := none
  clippingRuleInit := none
  clippingRuleCap := none
  textMatrix := TextMat.id
  textLineMatrix := TextMat.id
  charSpacing := 0
  wordSpacing := 0
  horizontalScaling := 1
  leading := none
  font := none
  fontSize := none
  textRenderMode := none
  textRise := 0

/-- `pdfState.GetFillRGBA`: composes the fill colour with the fill
transparency at read time (wx.ALPHA_OPAQUE = 255). -/
def pdfState.GetFillRGBA (g : pdfState) : ColourA :=
  ⟨g.fillRGB.red, g.fillRGB.green, g.fillRGB.blue, g.fillTransparency * 255⟩

/-- `pdfState.GetStrokeRGBA`: composes the stroke colour with the stroke
transparency at read time. -/
def pdfState.GetStrokeRGBA (g : pdfState) : ColourA :=
  ⟨g.strokeRGB.red, g.strokeRGB.green, g.strokeRGB.blue, g.strokeTransparency * 255⟩

/-- `pypdfProcessor.ConvertGrey`: greyscale operand to RGB triple via
`round(operand[0] * 255)` on each channel. -/
def ConvertGrey (v : ℚ) : ℤ × ℤ × ℤ :=
  let r := pyRound (v * 255)
  let g := pyRound (v * 255)
  let b := pyRound (v * 255)
  (r, g, b)

/-- `pypdfProcessor.ConvertCMYK`: CMYK operands (0 to 1.0) to the nearest
RGB triple.  The source computes `r`, then `b`, then `g`, and returns
`(r, g, b)`. -/
def ConvertCMYK (c m y k : ℚ) : ℤ × ℤ × ℤ :=
  let r := pyRound ((1 - c) * (1 - k) * 255)
  let b := pyRound ((1 - y) * (1 - k) * 255)
  let g := pyRound ((1 - m) * (1 - k) * 255)
  (r, g, b)

/-- Python slice `pal[i*chunk : (i+1)*chunk]`: returns fewer bytes when the
palette is too short, never an error. -/
def chunkAt (pal : List ℕ) (chunk i : ℕ) : List ℕ :=
  (pal.drop (i * chunk)).take chunk

/-- Palette chunks written by `DeindexImage` for one input byte, per declared
bit depth.  The bit extraction transcribes the source exactly, including the
Python operator precedence of the depth-2 branch, where `d & 12 >> 2` parses
as `d & (12 >> 2)`, and the depth-4 branch, which writes the low nibble
before the high nibble. -/
def deindexByte (xdepth : ℕ) (pal : List ℕ) (chunk : ℕ) (d : ℕ) : List ℕ :=
  if xdepth = 1 then
    let b8 := d &&& 1
    let b7 := (d &&& 2) >>> 1
    let b6 := (d &&& 4) >>> 2
    let b5 := (d &&& 8) >>> 3
    let b4 := (d &&& 16) >>> 4
    let b3 := (d &&& 32) >>> 5
    let b2 := (d &&& 64) >>> 6
    let b1 := (d &&& 128) >>> 7
    chunkAt pal chunk b1 ++ chunkAt pal chunk b2 ++ chunkAt pal chunk b3 ++
      chunkAt pal chunk b4 ++ chunkAt pal chunk b5 ++ chunkAt pal chunk b6 ++
      chunkAt pal chunk b7 ++ chunkAt pal chunk b8
  else if xdepth = 2 then
    let b4 := d &&& 3
    let b3 := d &&& (12 >>> 2)
    let b2 := d &&& (48 >>> 4)
    let b1 := d &&& (192 >>> 6)
    chunkAt pal chunk b1 ++ chunkAt pal chunk b2 ++ chunkAt pal chunk b3 ++
      chunkAt pal chunk b4
  else if xdepth = 4 then
    let b1 := d &&& 15
    let b2 := (d &&& 240) >>> 4
    chunkAt pal chunk b1 ++ chunkAt pal chunk b2
  else if xdepth = 8 then
    chunkAt pal chunk d
  else []

/-- `pypdfProcessor.DeindexImage`.  The output buffer is a `BytesIO`
initialised with `width * height * chunk` zero bytes; writing overwrites
from the start and `getvalue()` returns the whole buffer, so the result is
the written bytes padded with zeros up to the declared size (or longer when
more was written).  `xpsize` is accepted and ignored, as in the source. -/
def DeindexImage (width height : ℕ) (data : List ℕ) (xdepth : ℕ)
    (xpsize : ℕ) (xpal : List ℕ) (chunk : ℕ) : List ℕ :=
  let _ := xpsize
  let size := width * height * chunk
  let written := data.flatMap (deindexByte xdepth xpal chunk)
  written ++ List.replicate (size - written.length) 0

/-- Whether an RGB pixel falls inside the inclusive colour-key limits. -/
def inKeyRange (r1 r9 g1 g9 b1 b9 R G B : ℕ) : Bool :=
  r1 ≤ R && R ≤ r9 && g1 ≤ G && G ≤ g9 && b1 ≤ B && B ≤ b9

/-- Loop body of `pypdfProcessor.FixColour`: walks the data three bytes at a
time; reading past the end (data length not a multiple of 3) is an
IndexError, hence `none`. -/
def fixColourLoop (r1 r9 g1 g9 b1 b9 : ℕ) (fix : List ℕ) :
    List ℕ → Option (List ℕ)
  | [] => some []
  | R :: G :: B :: rest =>
    (fixColourLoop r1 r9 g1 g9 b1 b9 fix rest).map fun out =>
      (if inKeyRange r1 r9 g1 g9 b1 b9 R G B then fix else [R, G, B]) ++ out
  | _ => none

/-- `pypdfProcessor.FixColour`: copy of the RGB data with every pixel inside
the colour-key limits replaced by the fix colour.  The six limits are
unpacked from `colour_key_limits` (a ValueError if there are not exactly
six), the output `BytesIO` buffer is padded with zeros to the input length,
and the final `assert len(RGBdata) == len(d2)` is an AssertionError when it
fails. -/
def FixColour (RGBdata : List ℕ) (limits : List ℕ) (fix : List ℕ) :
    Option (List ℕ) :=
  match limits with
  | [r1, r9, g1, g9, b1, b9] =>
    match fixColourLoop r1 r9 g1 g9 b1 b9 fix RGBdata with
    | none => none
    | some w =>
      let out := w ++ List.replicate (RGBdata.length - w.length) 0
      if out.length = RGBdata.length then some out else none
  | _ => none

/-- wx font families used by `pypdfProcessor.SetFont`. -/
inductive FontFamily where
  | modern
  | swiss
  | roman
  | deflt
  deriving DecidableEq, Repr

/-- wx font styles. -/
inductive FontStyle where
  | normal
  | italic
  deriving DecidableEq, Repr

/-- wx font weights. -/
inductive FontWeight where
  | normal
  | bold
  deriving DecidableEq, Repr

/-- wx.Font value produced by `pypdfProcessor.SetFont`. -/
structure Font where
  size : ℚ
  family : FontFamily
  style : FontStyle
  weight : FontWeight
  face : String
  deriving DecidableEq, Repr

/-- wx `Font.Scale`, used with the two host scale factors: multiplies the
point size. -/
def Font.scaleBy (f : Font) (k : ℚ) : Font := { f with size := f.size * k }

/-- Python `t in s` substring test for strings (`s.count(t)` nonzero). -/
def containsStr (s t : String) : Bool := (s.splitOn t).length != 1

/-- Pen styles relevant to `DrawPath`. -/
inductive PenStyle where
  | solid
  | userDash
  deriving DecidableEq, Repr

/-- wx.Pen as constructed in `DrawPath`. -/
structure Pen where
  colour : ColourA
  width : ℚ
  style : PenStyle
  cap : CapStyle
  join : JoinStyle
  dashes : List ℤ
  deriving DecidableEq, Repr

/-- Winding rules passed to the DrawPath command: the literal `0` used for
stroke-only and no-op actions, wx.WINDING_RULE, and wx.ODDEVEN_RULE. -/
inductive WindRule where
  | zero
  | winding
  | oddeven
  deriving DecidableEq, Repr

/-- Decoded bitmap payloads: `wx.Bitmap.FromBuffer(width, height, data)` or
a JPEG constructed from the self-describing DCT stream. -/
inductive BitmapData where
  | fromBuffer (w h : ℕ) (data : List ℕ)
  | jpeg (data : List ℕ)
  deriving DecidableEq, Repr

/-- wx.Bitmap with an optional mask (`SetMask` with a mask bitmap and a
transparency key colour). -/
structure Bitmap where
  data : BitmapData
  mask : Option (BitmapData × Colour)
  deriving DecidableEq, Repr

/-- wx.Bitmap.FromBuffer, modelled as requiring at least
`width * height * 3` bytes of data (an external wx collaborator). -/
def fromBufferE (w h : ℕ) (data : List ℕ) : Except Unit BitmapData :=
  if 3 * w * h ≤ data.length then .ok (.fromBuffer w h data) else .error ()

/-- Draw commands emitted into the per-page drawlist (tag plus positional
arguments). -/
inductive Cmd where
  | concatTransform (a b c d e f : ℚ)
  | pushState
  | popState
  | setFont (f : Font) (col : ColourA)
  | setPen (p : Pen)
  | setPenTransparent
  | setBrush (col : ColourA)
  | setBrushTransparent
  | createPath
  | moveToPoint (x y : ℚ)
  | addLineToPoint (x y : ℚ)
  | addCurveToPoint (args : List ℚ)
  | addRectangle (x y w h : ℚ)
  | closeSubpath
  | drawPath (rule : WindRule)
  | drawText (s : List ℕ) (x y : ℚ)
  | drawBitmap (b : Bitmap) (x y w h : ℚ)
  deriving DecidableEq, Repr

/-- Recogniser for DrawBitmap commands, used by the transform-fold pass. -/
def Cmd.isDrawBitmap : Cmd → Bool
  | .drawBitmap _ _ _ _ _ => true
  | _ => false

/-- Recogniser for DrawText commands. -/
def Cmd.isDrawText : Cmd → Bool
  | .drawText _ _ _ => true
  | _ => false

/-- Declared colour space of an image XObject: a PDF null, a name, or an
`[/Indexed base hival palette]` array. -/
inductive CSpace where
  | null
  | nm (s : String)
  | indexed (base : CSpace) (hival : ℕ) (palette : List ℕ)
  deriving DecidableEq, Repr

/-- An explicit 1-bit mask stream referenced from `/Mask`. -/
structure MaskImage where
  width : ℕ
  height : ℕ
  filters : List String
  dataRaw : List ℕ
  deriving DecidableEq, Repr

/-- The `/Mask` entry of an image: absent, a colour-key array, or a mask
stream. -/
inductive MaskSpec where
  | nomask
  | colourKey (vals : List ℕ)
  | stream (m : MaskImage)
  deriving DecidableEq, Repr

/-- An image XObject as consulted by `InsertXObject`. -/
structure ImageX where
  width : ℕ
  height : ℕ
  depth : ℕ
  colorSpace : CSpace
  filters : List String
  mask : MaskSpec
  dataRaw : List ℕ
  imageMask : Bool
  deriving DecidableEq, Repr

/-- An XObject resource: an image, or any other subtype (for which
`InsertXObject` returns a falsy result and the `Do` handler appends
nothing). -/
inductive XObj where
  | image (img : ImageX)
  | nonImage
  deriving Repr

/-- External collaborators and per-call resources: the page font map, the
XObject map, the four filter codecs, the text-metrics providers, and the
host scale factors. -/
structure Env where
  fonts : String → Option String
  xobjects : String → Option XObj
  lzw : List ℕ → List ℕ
  a85 : List ℕ → List ℕ
  flate : List ℕ → List ℕ
  ccitt : List ℕ → List ℕ
  extent : List ℕ → Font → ℚ × ℚ × ℚ × ℚ
  rlStringWidth : List ℕ → Option String → Option ℚ → ℚ
  haveRlWidth : Bool
  fontScaleMetrics : ℚ
  fontScaleSize : ℚ

/-- Interpreter state threaded through `ProcessOperators`: the current
graphics state, the save stack, the accumulated path, the two
function-local clipping variables (`NewClippingPathRequired` and
`NewClippingRule`, `none` while still unbound), and the processor fields
`knownfont`, the module-global `missing_fonts`, and the report-once
`unimplemented` map. -/
structure St where
  gstate : pdfState
  saved : List pdfState
  path : List PathSeg
  ncpr : Option Bool
  pendingRule : Option Bool
  knownfont : Bool
  missing : List String
  unimplemented : List String
  deriving DecidableEq, Repr

/-- Interpreter state at the start of a page (`DrawFile` resets the state
and the save stack for every page). -/
def St.init : St :=
  ⟨pdfState.init, [], [], none, none, false, [], []⟩

/-- `pypdfProcessor.UnpackImage`: applies the four stream filters in the
fixed order LZW, ASCII85, Flate, CCITT-Fax, each only when its name occurs
in the filter list.  Decode parameters are consumed by the external codecs
and are not modelled. -/
def UnpackImage (env : Env) (data : List ℕ) (filters : List String) : List ℕ :=
  let data := if "/LZWDecode" ∈ filters then env.lzw data else data
  let data := if "/A85" ∈ filters ∨ "/ASCII85Decode" ∈ filters then env.a85 data else data
  let data := if "/Fl" ∈ filters ∨ "/FlateDecode" ∈ filters then env.flate data else data
  if "/CCF" ∈ filters ∨ "/CCITTFaxDecode" ∈ filters then env.ccitt data else data

/-- Family, face name, and whether the base font is one of the five
recognised families, from the lowered base-font string (`SetFont`). -/
def pickFamily (nm : String) : FontFamily × String × Bool :=
  if containsStr nm "courier" then (.modern, "Courier New", true)
  else if containsStr nm "helvetica" then (.swiss, "Arial", true)
  else if containsStr nm "times" then (.roman, "Times New Roman", true)
  else if containsStr nm "symbol" then (.deflt, "Symbol", true)
  else if containsStr nm "zapfdingbats" then (.deflt, "Wingdings", true)
  else (.swiss, "Arial", false)

/-- Append a font name to the module-global `missing_fonts` unless already
reported. -/
def markMissing (st : St) (nm : String) : St :=
  if nm ∈ st.missing then st else { st with missing := st.missing ++ [nm] }

/-- `pypdfProcessor.SetFont` with its side effects on `self.knownfont` and
the global `missing_fonts` list.  `self.knownfont = True` executes before
`pdfont.lower()`, so the flag is set even when the call then raises
(AttributeError on a `None` font, or TypeError from `max(1, None)` when no
size is set). -/
def SetFontSt (st : St) (pdfont : Option String) (size : Option ℚ) :
    St × Except Unit Font :=
  let st1 := { st with knownfont := true }
  match pdfont with
  | none => (st1, .error ())
  | some f =>
    let nm := f.toLower
    let pick := pickFamily nm
    let st2 := if pick.2.2 then st1 else markMissing { st1 with knownfont := false } nm
    let weight := if containsStr nm "bold" then FontWeight.bold else FontWeight.normal
    let style :=
      if containsStr nm "oblique" || containsStr nm "italic" then FontStyle.italic
      else FontStyle.normal
    match size with
    | none => (st2, .error ())
    | some s => (st2, .ok ⟨max 1 s, pick.1, style, weight, pick.2.1⟩)

/-- Python `bytes.split(b" ")`: splits on every space byte and keeps empty
runs (`b"a  b"` gives three runs, the middle one empty; `b""` gives one
empty run). -/
def splitSpace : List ℕ → List (List ℕ)
  | [] => [[]]
  | b :: rest =>
    if b = 32 then [] :: splitSpace rest
    else
      match splitSpace rest with
      | r :: rs => (b :: r) :: rs
      | [] => [[b]]

/-- Python `bs.decode("latin-1").encode()`: re-encodes the byte string as
UTF-8, so bytes 128–255 become two bytes each. -/
def latin1ToUtf8 (l : List ℕ) : List ℕ :=
  l.flatMap fun b => if b < 128 then [b] else [192 + b / 64, 128 + b % 64]

/-- `pypdfProcessor.DrawTextItem`: measures one run, advances the text
matrix x translation by `width + wordSpacing`, and returns the DrawText
command.  When word spacing is positive a space byte is appended before
measuring.  The width comes from the reportlab `stringWidth` metric when
available and the font is known, else from the device text extent. -/
def DrawTextItem (env : Env) (st : St) (textitem : List ℕ) (f : Font) :
    St × Cmd :=
  let g := st.gstate
  let x := g.textMatrix.e
  let y := g.textMatrix.f + g.textRise
  let item := if g.wordSpacing > 0 then textitem ++ [32] else textitem
  let ext := env.extent item f
  let width :=
    if env.haveRlWidth && st.knownfont then env.rlStringWidth item g.font g.fontSize
    else ext.1
  let g2 := { g with textMatrix :=
    { g.textMatrix with e := g.textMatrix.e + (width + g.wordSpacing) } }
  ({ st with gstate := g2 }, .drawText item x (-y - (ext.2.1 - ext.2.2.1)))

/-- Folds `DrawTextItem` over the runs of a shown string. -/
def drawItems (env : Env) (f : Font) : St → List (List ℕ) → St × List Cmd
  | st, [] => (st, [])
  | st, it :: rest =>
    let p := DrawTextItem env st it f
    let q := drawItems env f p.1 rest
    (q.1, p.2 :: q.2)

/-- `pypdfProcessor.DrawTextString`: resolves the current font twice (once
scaled for metrics, once for glyph size), emits a SetFont command with the
composed fill colour, splits the text into runs on the space byte when word
spacing is positive, and draws each run.  Exceptions from `SetFont`
propagate, with the `knownfont` side effect already applied. -/
def DrawTextString (env : Env) (st : St) (text : List ℕ) :
    St × Except Unit (List Cmd) :=
  match SetFontSt st st.gstate.font st.gstate.fontSize with
  | (st1, .error e) => (st1, .error e)
  | (st1, .ok f0raw) =>
    let f0 := f0raw.scaleBy env.fontScaleMetrics
    match SetFontSt st1 st1.gstate.font st1.gstate.fontSize with
    | (st2, .error e) => (st2, .error e)
    | (st2, .ok f1raw) =>
      let f1 := f1raw.scaleBy env.fontScaleSize
      let textlist := if st2.gstate.wordSpacing > 0 then splitSpace text else [text]
      let r := drawItems env f0 st2 textlist
      (r.1, .ok (Cmd.setFont f1 st2.gstate.GetFillRGBA :: r.2))

/-- Elements of a `TJ` operand array: numeric kerning adjustments or byte
strings. -/
inductive TJEl where
  | num (q : ℚ)
  | str (s : List ℕ)
  deriving DecidableEq, Repr

/-- Whether a `TJ` array element is a string. -/
def TJEl.isStr : TJEl → Bool
  | .num _ => false
  | .str _ => true

/-- One string element of a `TJ` array: `DrawTextString` under the bare
`except` of the `TJ` handler; on failure a second attempt with `"?" * len`
is made, and a second failure is swallowed after a report. -/
def tjShow (env : Env) (st : St) (s : List ℕ) : St × List Cmd :=
  match DrawTextString env st s with
  | (st1, .ok cs) => (st1, cs)
  | (st1, .error _) =>
    match DrawTextString env st1 (List.replicate s.length 63) with
    | (st2, .ok cs) => (st2, cs)
    | (st2, .error _) => (st2, [])

/-- The `TJ` handler loop: numeric elements fall into the commented-out
`pass` branch, string elements are shown. -/
def tjRun (env : Env) : St → List TJEl → St × List Cmd
  | st, [] => (st, [])
  | st, .num _ :: rest => tjRun env st rest
  | st, .str s :: rest =>
    let p := tjShow env st s
    let q := tjRun env p.1 rest
    (q.1, p.2 ++ q.2)

/-- Path-painting operators (`b B b* B* f F f* s S n`). -/
inductive PaintAct where
  | bigS
  | smallS
  | smallF
  | bigF
  | fStar
  | bigB
  | bigBstar
  | smallB
  | smallBstar
  | n
  deriving DecidableEq, Repr

/-- The `acts` table of `DrawPath`: stroke flag, fill flag, winding rule. -/
def paintActs : PaintAct → Bool × Bool × WindRule
  | .bigS => (true, false, .zero)
  | .smallS => (true, false, .zero)
  | .smallF => (false, true, .winding)
  | .bigF => (false, true, .winding)
  | .fStar => (false, true, .oddeven)
  | .bigB => (true, true, .winding)
  | .bigBstar => (true, true, .oddeven)
  | .smallB => (true, true, .winding)
  | .smallBstar => (true, true, .oddeven)
  | .n => (false, false, .zero)

/-- Paint operators that append an implicit close (`s`, `b`, `b*`). -/
def PaintAct.closes : PaintAct → Bool
  | .smallS => true
  | .smallB => true
  | .smallBstar => true
  | _ => false

/-- Segment loop of `DrawPath`.  The y coordinate of every point is negated
on emission.  `cur` is the Python pair `xc, yc`, assigned only by `m` and
`l`; a `v` curve before any assignment is an UnboundLocalError, and missing
operand coordinates are IndexErrors. -/
def drawSegs : Option (ℚ × ℚ) → List PathSeg → Except Unit (List Cmd)
  | _, [] => .ok []
  | cur, seg :: rest =>
    match seg.kind with
    | .m =>
      match seg.coords with
      | cx :: cy :: _ => do
        let x0 := cx
        let y0 := -cy
        let cmds ← drawSegs (some (x0, y0)) rest
        .ok (.moveToPoint x0 y0 :: cmds)
      | _ => .error ()
    | .l =>
      match seg.coords with
      | cx :: cy :: _ => do
        let x2 := cx
        let y2 := -cy
        let cmds ← drawSegs (some (x2, y2)) rest
        .ok (.addLineToPoint x2 y2 :: cmds)
      | _ => .error ()
    | .re =>
      match seg.coords with
      | cx :: cy :: cw :: ch :: _ => do
        let x := cx
        let y := -cy
        let retuple : ℚ × ℚ × ℚ × ℚ :=
          if ch < 0 then (x, y, cw, -ch) else (x, y - ch, cw, ch)
        let cmds ← drawSegs cur rest
        .ok (.addRectangle retuple.1 retuple.2.1 retuple.2.2.1 retuple.2.2.2 :: cmds)
      | _ => .error ()
    | .c =>
      match seg.coords with
      | c0 :: c1 :: c2 :: c3 :: c4 :: c5 :: _ => do
        let cmds ← drawSegs cur rest
        .ok (.addCurveToPoint [c0, -c1, c2, -c3, c4, -c5] :: cmds)
      | _ => .error ()
    | .v =>
      match cur with
      | none => .error ()
      | some xy =>
        match seg.coords with
        | c0 :: c1 :: c2 :: c3 :: _ => do
          let cmds ← drawSegs cur rest
          .ok (.addCurveToPoint [xy.1, xy.2, c0, -c1, c2, -c3] :: cmds)
        | _ => .error ()
    | .y =>
      match seg.coords with
      | c0 :: c1 :: c2 :: c3 :: _ => do
        let cmds ← drawSegs cur rest
        .ok (.addCurveToPoint [c0, -c1, c2, -c3, c2, -c3] :: cmds)
      | _ => .error ()
    | .h => do
      let cmds ← drawSegs cur rest
      .ok (.closeSubpath :: cmds)

/-- `pypdfProcessor.DrawPath`: appends the implicit close for `s`/`b`/`b*`,
emits SetPen/SetBrush (or their transparent variants), CreatePath, the
accumulated segments, and the final DrawPath with the selected rule. -/
def DrawPath (g : pdfState) (path : List PathSeg) (action : PaintAct) :
    Except Unit (List Cmd) :=
  let acts := paintActs action
  let path := if action.closes then path ++ [⟨[], .h⟩] else path
  let penCmd : Cmd :=
    if acts.1 then
      let style := if g.lineDashArray ≠ [] then PenStyle.userDash else PenStyle.solid
      .setPen ⟨g.GetStrokeRGBA, g.lineWidth, style, g.lineCapStyle,
               g.lineJoinStyle, g.lineDashArray⟩
    else .setPenTransparent
  let brushCmd : Cmd := if acts.2.1 then .setBrush g.GetFillRGBA else .setBrushTransparent
  do
    let segCmds ← drawSegs none path
    .ok (penCmd :: brushCmd :: .createPath :: segCmds ++ [.drawPath acts.2.2])

/-- `pypdfProcessor.SetClippingPath`: records the path on the state (the
clipping path is never intersected against painting), assigns the
dynamically created `ClippingRule` attribute, and returns an empty
drawlist. -/
def SetClippingPathF (g : pdfState) (path : List PathSeg) (rule : Option Bool) :
    pdfState :=
  let cp := match g.clippingPath with | none => [] | some l => l
  { g with clippingPath := some (cp ++ [path]), clippingRuleCap := rule }

/-- Built-in black/white palette `bytes.fromhex("000000FFFFFF")`. -/
def bwPalette : List ℕ := [0, 0, 0, 255, 255, 255]

/-- Built-in 2-bit grey ramp palette. -/
def greyPalette2 : List ℕ := [0, 0, 0, 85, 85, 85, 170, 170, 170, 255, 255, 255]

/-- Built-in 4-bit grey ramp palette (16 entries of 0x00, 0x11, …, 0xFF). -/
def greyPalette4 : List ℕ := (List.range 16).flatMap fun i => [17 * i, 17 * i, 17 * i]

/-- Built-in 8-bit grey ramp palette
(`bytes([x for x in range(256) for z in range(3)])`). -/
def greyPalette8 : List ℕ := (List.range 256).flatMap fun x => [x, x, x]

/-- Colour-resolution branch chain of `InsertXObject` (image subtype).
Returns the Python locals `bitmap` and `RGBdata` (`none` models an unbound
local).  The indexed `/DeviceGray` branch reads the unbound local `palette`
(the source means `x_palette`), an UnboundLocalError; a failing
`wx.Bitmap.FromBuffer` is caught only in the bare `/DeviceRGB` branch. -/
def resolveImageData (img : ImageX) (xIndexed : Bool)
    (xColor : CSpace) (xpsize : ℕ) (xpal : List ℕ) (data : List ℕ) :
    Except Unit (Option BitmapData × Option (List ℕ)) :=
  if "/DCT" ∈ img.filters ∨ "/DCTDecode" ∈ img.filters then
    .ok (some (.jpeg data), none)
  else if xIndexed = false ∧ xColor = .nm "/DeviceRGB" ∧ img.depth = 8 then
    match fromBufferE img.width img.height data with
    | .ok b => .ok (some b, some data)
    | .error _ => .ok (none, some data)
  else if xColor = .null ∧ img.depth ≠ 1 then
    .ok (none, none)
  else if xIndexed ∧ xColor = .nm "/DeviceRGB" then do
    let rgb := DeindexImage img.width img.height data img.depth xpsize xpal 3
    let b ← fromBufferE img.width img.height rgb
    .ok (some b, some rgb)
  else if xIndexed ∧ xColor = .nm "/DeviceGray" then
    .error ()
  else if xIndexed then
    .ok (none, none)
  else if xColor = .nm "/DeviceGray" ∧
      (img.depth = 1 ∨ img.depth = 2 ∨ img.depth = 4 ∨ img.depth = 8) then do
    let palette :=
      if img.depth = 1 then bwPalette
      else if img.depth = 2 then greyPalette2
      else if img.depth = 4 then greyPalette4
      else greyPalette8
    let rgb := DeindexImage img.width img.height data img.depth palette.length palette 3
    let b ← fromBufferE img.width img.height rgb
    .ok (some b, some rgb)
  else if xColor = .null ∧ img.depth = 1 then do
    let palette := bwPalette
    let rgb := DeindexImage img.width img.height data img.depth palette.length palette 3
    let b ← fromBufferE img.width img.height rgb
    .ok (some b, some rgb)
  else
    .ok (none, none)

/-- Mask section of `InsertXObject`.  A colour-key mask rewrites the decoded
RGB raster with `FixColour` (reading the local `RGBdata`, an
UnboundLocalError when the image was not decoded) and keys the wx mask on
the three upper bounds; a mask stream is decoded through the filter chain
and de-indexed with the black/white palette, keyed on white.  `SetMask` on
the unbound local `bitmap` is an UnboundLocalError. -/
def applyMask (env : Env) (img : ImageX) (bitmapO : Option BitmapData)
    (rgbO : Option (List ℕ)) : Except Unit (Option Bitmap) :=
  match img.mask with
  | .nomask => .ok (bitmapO.map fun b => ⟨b, none⟩)
  | .colourKey vals =>
    match vals with
    | [_r1, r9, _g1, g9, _b1, b9x] => do
      let rgbd ← match rgbO with
        | none => .error ()
        | some r => .ok r
      let maskData ← match FixColour rgbd vals [r9, g9, b9x] with
        | some m => .ok m
        | none => .error ()
      let mb ← fromBufferE img.width img.height maskData
      match bitmapO with
      | none => .error ()
      | some b => .ok (some ⟨b, some (mb, ⟨r9, g9, b9x⟩)⟩)
    | _ => .error ()
  | .stream m => do
    let mdata := UnpackImage env m.dataRaw m.filters
    let mrgb := DeindexImage m.width m.height mdata 1 bwPalette.length bwPalette 3
    let mb ← fromBufferE m.width m.height mrgb
    match bitmapO with
    | none => .error ()
    | some b => .ok (some ⟨b, some (mb, ⟨255, 255, 255⟩)⟩)

/-- `pypdfProcessor.InsertXObject` for an image subtype: resolve the
indexed colour space, decode the payload through the filter chain, resolve
the samples to a bitmap, apply the optional mask, and append the single
DrawBitmap command at `(0, -height)` with the image dimensions.  The final
append reads the local `bitmap`, so an image whose colour space was not
handled raises UnboundLocalError instead of being skipped. -/
def InsertXObject (env : Env) (img : ImageX) : Except Unit (List Cmd) := do
  let res :=
    match img.colorSpace with
    | .indexed base hival pal => (true, base, hival, pal)
    | cs => (false, cs, 0, ([] : List ℕ))
  let data := UnpackImage env img.dataRaw img.filters
  let pr ← resolveImageData img res.1 res.2.1 res.2.2.1 res.2.2.2 data
  let bm ← applyMask env img pr.1 pr.2
  match bm with
  | none => .error ()
  | some b =>
    .ok [.drawBitmap b 0 (0 - (img.height : ℚ)) (img.width : ℚ) (img.height : ℚ)]

/-- The bitmap-transform fix-up loop at the end of `ProcessOperators`:
wherever a ConcatTransform is immediately followed by a DrawBitmap, the
bitmap position/size take the transform scales `(a, d)` and the transform
is rewritten to `(1, b/a, c/d, 1, e, f)` — a ZeroDivisionError when `a` or
`d` is zero. -/
def transformFold : List Cmd → Except Unit (List Cmd)
  | [] => .ok []
  | [c] => .ok [c]
  | .concatTransform a b c d e f :: .drawBitmap bmp x _y _w0 _h0 :: rest =>
    if a = 0 ∨ d = 0 then .error ()
    else do
      let out ← transformFold rest
      .ok (.concatTransform 1 (b / a) (c / d) 1 e f ::
           .drawBitmap bmp x (-d) a d :: out)
  | c1 :: c2 :: rest => do
    let out ← transformFold (c2 :: rest)
    .ok (c1 :: out)

/-- Operators dispatched by `ProcessOperators`, with their already-typed
operands.  `other` covers every unrecognised operator name (reported once
each). -/
inductive Op where
  | cm (a b c d e f : ℚ)
  | q
  | Qop
  | RG (r g b : ℚ)
  | rg (r g b : ℚ)
  | K (c m y k : ℚ)
  | kLow (c m y k : ℚ)
  | G (v : ℚ)
  | gLow (v : ℚ)
  | w (v : ℚ)
  | J (v : ℚ)
  | jLow (v : ℚ)
  | dOp (arr : List ℚ) (phase : ℚ)
  | pathOp (kind : PathKind) (coords : List ℚ)
  | W (star : Bool)
  | paint (act : PaintAct)
  | BT
  | ET
  | Tm (a b c d e f : ℚ)
  | TL (v : ℚ)
  | Tc (v : ℚ)
  | Tw (v : ℚ)
  | Tz (v : ℚ)
  | Ts (v : ℚ)
  | Td (dx dy : ℚ)
  | Tf (name : String) (size : ℚ)
  | Tstar
  | Tj (s : List ℕ)
  | quoteOp (s : List ℕ)
  | dquoteOp (aw ac : ℚ) (s : List ℕ)
  | TJ (arr : List TJEl)
  | doOp (name : String)
  | other (name : String)
  deriving DecidableEq, Repr

/-- One dispatch iteration of `ProcessOperators`: interprets a single
operator against the interpreter state and yields the commands appended to
the drawlist.  Uncaught Python exceptions (stack underflow on `Q`, unknown
cap/join codes, font lookup KeyError, text drawing without a font, image
decode slips, a paint operator before any path operator) are `.error`. -/
def step (env : Env) (st : St) : Op → Except Unit (St × List Cmd)
  | .cm a b c d e f => .ok (st, [.concatTransform a (-b) (-c) d e (-f)])
  | .q => .ok ({ st with saved := st.gstate :: st.saved }, [.pushState])
  | .Qop =>
    match st.saved with
    | [] => .error ()
    | g0 :: rest => .ok ({ st with gstate := g0, saved := rest }, [.popState])
  | .RG r g b =>
    .ok ({ st with gstate := { st.gstate with
      strokeRGB := ⟨pyInt (r * 255), pyInt (g * 255), pyInt (b * 255)⟩ } }, [])
  | .rg r g b =>
    .ok ({ st with gstate := { st.gstate with
      fillRGB := ⟨pyInt (r * 255), pyInt (g * 255), pyInt (b * 255)⟩ } }, [])
  | .K c m y k =>
    let t := ConvertCMYK c m y k
    .ok ({ st with gstate := { st.gstate with strokeRGB := ⟨t.1, t.2.1, t.2.2⟩ } }, [])
  | .kLow c m y k =>
    let t := ConvertCMYK c m y k
    .ok ({ st with gstate := { st.gstate with fillRGB := ⟨t.1, t.2.1, t.2.2⟩ } }, [])
  | .G v =>
    let t := ConvertGrey v
    .ok ({ st with gstate := { st.gstate with strokeRGB := ⟨t.1, t.2.1, t.2.2⟩ } }, [])
  | .gLow v =>
    let t := ConvertGrey v
    .ok ({ st with gstate := { st.gstate with fillRGB := ⟨t.1, t.2.1, t.2.2⟩ } }, [])
  | .w v =>
    .ok ({ st with gstate := { st.gstate with lineWidth := max v 1 } }, [])
  | .J v =>
    if v = 0 then .ok ({ st with gstate := { st.gstate with lineCapStyle := .butt } }, [])
    else if v = 1 then .ok ({ st with gstate := { st.gstate with lineCapStyle := .round } }, [])
    else if v = 2 then .ok ({ st with gstate := { st.gstate with lineCapStyle := .projecting } }, [])
    else .error ()
  | .jLow v =>
    if v = 0 then .ok ({ st with gstate := { st.gstate with lineJoinStyle := .miter } }, [])
    else if v = 1 then .ok ({ st with gstate := { st.gstate with lineJoinStyle := .round } }, [])
    else if v = 2 then .ok ({ st with gstate := { st.gstate with lineJoinStyle := .bevel } }, [])
    else .error ()
  | .dOp arr phase =>
    .ok ({ st with gstate := { st.gstate with
      lineDashArray := arr.map pyInt, lineDashPhase := pyInt phase } }, [])
  | .pathOp kind coords =>
    .ok ({ st with ncpr := some false, path := st.path ++ [⟨coords, kind⟩] }, [])
  | .W star => .ok ({ st with ncpr := some true, pendingRule := some star }, [])
  | .paint act => do
    let cs ← DrawPath st.gstate st.path act
    match st.ncpr with
    | none => .error ()
    | some true =>
      let g2 := SetClippingPathF st.gstate st.path st.pendingRule
      .ok ({ st with gstate := g2, path := [] }, cs)
    | some false => .ok ({ st with path := [] }, cs)
  | .BT =>
    .ok ({ st with gstate := { st.gstate with
      textMatrix := TextMat.id, textLineMatrix := TextMat.id } }, [])
  | .ET => .ok (st, [])
  | .Tm a b c d e f =>
    .ok ({ st with gstate := { st.gstate with
      textMatrix := ⟨a, b, c, d, e, f⟩, textLineMatrix := ⟨a, b, c, d, e, f⟩ } }, [])
  | .TL v => .ok ({ st with gstate := { st.gstate with leading := some v } }, [])
  | .Tc v => .ok ({ st with gstate := { st.gstate with charSpacing := v } }, [])
  | .Tw v => .ok ({ st with gstate := { st.gstate with wordSpacing := v } }, [])
  | .Tz v => .ok ({ st with gstate := { st.gstate with horizontalScaling := v / 100 } }, [])
  | .Ts v => .ok ({ st with gstate := { st.gstate with textRise := v } }, [])
  | .Td dx dy =>
    let tlm := st.gstate.textLineMatrix
    let tlm2 := { tlm with e := tlm.e + dx, f := tlm.f + dy }
    .ok ({ st with gstate := { st.gstate with
      textLineMatrix := tlm2, textMatrix := tlm2 } }, [])
  | .Tf name size =>
    match env.fonts name with
    | none => .error ()
    | some base =>
      .ok ({ st with gstate := { st.gstate with
        font := some base, fontSize := some size } }, [])
  | .Tstar =>
    let tlm := st.gstate.textLineMatrix
    let tlm2 := { tlm with
      e := tlm.e + 0,
      f := tlm.f - (match st.gstate.leading with | some l => l | none => 0) }
    .ok ({ st with gstate := { st.gstate with
      textLineMatrix := tlm2, textMatrix := tlm2 } }, [])
  | .Tj s =>
    let s2 := latin1ToUtf8 s
    match DrawTextString env st s2 with
    | (st1, .ok cs) => .ok (st1, cs)
    | (_, .error e) => .error e
  | .quoteOp s =>
    let tlm := st.gstate.textLineMatrix
    let tlm2 := { tlm with
      e := tlm.e + 0,
      f := tlm.f - (match st.gstate.leading with | some l => l | none => 0) }
    let stq := { st with gstate := { st.gstate with
      textLineMatrix := tlm2, textMatrix := tlm2 } }
    match DrawTextString env stq s with
    | (st1, .ok cs) => .ok (st1, cs)
    | (_, .error e) => .error e
  | .dquoteOp aw ac s =>
    let g1 := { st.gstate with wordSpacing := aw, charSpacing := ac }
    let tlm := g1.textLineMatrix
    let tlm2 := { tlm with
      e := tlm.e + 0,
      f := tlm.f - (match g1.leading with | some l => l | none => 0) }
    let stq := { st with gstate := { g1 with textLineMatrix := tlm2, textMatrix := tlm2 } }
    match DrawTextString env stq s with
    | (st1, .ok cs) => .ok (st1, cs)
    | (_, .error e) => .error e
  | .TJ arr =>
    let p := tjRun env st arr
    .ok (p.1, p.2)
  | .doOp name =>
    match env.xobjects name with
    | none => .error ()
    | some .nonImage => .ok (st, [])
    | some (.image img) => do
      let cs ← InsertXObject env img
      .ok (st, if cs.isEmpty then [] else cs)
  | .other name =>
    .ok ({ st with unimplemented :=
      if name ∈ st.unimplemented then st.unimplemented
      else st.unimplemented ++ [name] }, [])

/-- The dispatch loop of `ProcessOperators` over the operator list,
concatenating the commands appended to the drawlist. -/
def run (env : Env) : St → List Op → Except Unit (St × List Cmd)
  | st, [] => .ok (st, [])
  | st, op :: rest => do
    let p ← step env st op
    let q ← run env p.1 rest
    .ok (q.1, p.2 ++ q.2)

/-- `pypdfProcessor.ProcessOperators`: the dispatch loop followed by the
bitmap-transform fix-up pass over the finished drawlist. -/
def ProcessOperators (env : Env) (st : St) (ops : List Op) :
    Except Unit (St × List Cmd) := do
  let p ← run env st ops
  let cs ← transformFold p.2
  .ok (p.1, cs)

/-- Nesting check for `q`/`Q`: starting from `a` unmatched saves, `some b`
when no `Q` pops past the protected part of the stack, returning the net
number of unmatched saves; `none` on underflow into the protected part.
`finalDepth 0 ops = some 0` is exactly well-formed `q … Q` nesting. -/
def finalDepth : ℕ → List Op → Option ℕ
  | a, [] => some a
  | a, .q :: rest => finalDepth (a + 1) rest
  | a, .Qop :: rest =>
    match a with
    | 0 => none
    | b + 1 => finalDepth b rest
  | a, _ :: rest => finalDepth a rest

/-- Big-endian sample unpacking as the specification describes it: each
byte yields its samples of the declared depth from the high bits down. -/
def unpackBE (depth : ℕ) (d : ℕ) : List ℕ :=
  if depth = 1 then
    [(d >>> 7) &&& 1, (d >>> 6) &&& 1, (d >>> 5) &&& 1, (d >>> 4) &&& 1,
     (d >>> 3) &&& 1, (d >>> 2) &&& 1, (d >>> 1) &&& 1, d &&& 1]
  else if depth = 2 then
    [(d >>> 6) &&& 3, (d >>> 4) &&& 3, (d >>> 2) &&& 3, d &&& 3]
  else if depth = 4 then
    [(d >>> 4) &&& 15, d &&& 15]
  else if depth = 8 then [d]
  else []

/-- De-indexing as the specification describes it (§4.5): unpack each
sample of the declared bit depth from big-endian bit order within each
input byte and replace it by its palette chunk.  Comparison definition for
the de-index claim; written from the specification text, not the source. -/
def DeindexImageSpec (data : List ℕ) (depth : ℕ) (pal : List ℕ)
    (chunk : ℕ) : List ℕ :=
  (data.flatMap (unpackBE depth)).flatMap (chunkAt pal chunk)

/-- Colour-key rewrite as the specification describes it: every 3-byte
pixel whose components all fall within the inclusive ranges is replaced by
the key colour, every other pixel is kept.  Comparison definition for the
colour-key claim. -/
def colourKeySpecMap (r1 r9 g1 g9 b1 b9 : ℕ) (fix : List ℕ) :
    List ℕ → List ℕ
  | R :: G :: B :: rest =>
    (if inKeyRange r1 r9 g1 g9 b1 b9 R G B then fix else [R, G, B]) ++
      colourKeySpecMap r1 r9 g1 g9 b1 b9 fix rest
  | l => l

/-- Concrete environment used by the closed evaluations: identity codecs,
a text extent reporting the byte length as width, reportlab metrics
disabled, unit scale factors, and a single page font `F1`. -/
def env0 : Env where
  fonts := fun n => if n = "F1" then some "Helvetica" else none
  xobjects := fun _ => none
  lzw := id
  a85 := id
  flate := id
  ccitt := id
  extent := fun s _f => ((s.length : ℚ), 10, 2, 0)
  rlStringWidth := fun s _f _sz => (s.length : ℚ) * 2
  haveRlWidth := false
  fontScaleMetrics := 1
  fontScaleSize := 1

/-- A one-pixel bitmap used by the transform-fold evaluations. -/
def bmp0 : Bitmap := ⟨.fromBuffer 1 1 [0, 0, 0], none⟩

/-- Identity palette with four 3-byte entries (depth-2 samples). -/
def idPal4 : List ℕ := [0, 0, 0, 1, 1, 1, 2, 2, 2, 3, 3, 3]

/-- Identity palette with sixteen 3-byte entries (depth-4 samples). -/
def idPal16 : List ℕ := (List.range 16).flatMap fun x => [x, x, x]

/-- Identity palette with 256 3-byte entries (depth-8 samples). -/
def idPal256 : List ℕ := (List.range 256).flatMap fun x => [x, x, x]

/-- An 8-bit CMYK image XObject with no filters and no mask. -/
def imgCMYK : ImageX :=
  ⟨2, 2, 8, .nm "/DeviceCMYK", [], .nomask, List.replicate 16 0, false⟩

/-- Environment exposing `imgCMYK` under the XObject name `im`. -/
def env3 : Env :=
  { env0 with xobjects := fun n => if n = "im" then some (.image imgCMYK) else none }

/-- Interpreter state whose graphics state has a font set and a positive
word spacing (as after `/F1 12 Tf` and `2 Tw`). -/
def stWS : St :=
  { St.init with gstate := { St.init.gstate with
      font := some "Helvetica", fontSize := some 12, wordSpacing := 2 } }

/-- Interpreter state whose graphics state has a font set and zero word
spacing. -/
def stF : St :=
  { St.init with gstate := { St.init.gstate with
      font := some "Helvetica", fontSize := some 12 } }

end Viewer

deriving instance DecidableEq for Except

namespace Viewer

lemma fixColourLoop_spec (r1 r9 g1 g9 b1 b9 : ℕ) (fix : List ℕ)
    (hfix : fix.length = 3) :
    ∀ (n : ℕ) (data : List ℕ), data.length ≤ n → data.length % 3 = 0 →
      fixColourLoop r1 r9 g1 g9 b1 b9 fix data =
        some (colourKeySpecMap r1 r9 g1 g9 b1 b9 fix data) ∧
      (colourKeySpecMap r1 r9 g1 g9 b1 b9 fix data).length = data.length := by
  intro n
  induction n with
  | zero =>
    intro data hle h3
    match data with
    | [] => simp [fixColourLoop, colourKeySpecMap]
    | a :: rest => simp at hle
  | succ n ih =>
    intro data hle h3
    match data with
    | [] => simp [fixColourLoop, colourKeySpecMap]
    | [a] => simp at h3
    | [a, b] => simp at h3
    | a :: b :: c :: rest =>
      have hr3 : rest.length % 3 = 0 := by simp at h3; omega
      have hrle : rest.length ≤ n := by simp at hle; omega
      have hih := ih rest hrle hr3
      constructor
      · simp [fixColourLoop, hih.1, colourKeySpecMap]
      · simp only [colourKeySpecMap, List.length_append, List.length_cons, hih.2]
        by_cases hk : inKeyRange r1 r9 g1 g9 b1 b9 a b c
        · simp [hk, hfix]; omega
        · simp [hk]; omega

end Viewer

namespace Viewer

@[simp] lemma except_bind_ok {α β ε : Type} (x : α) (f : α → Except ε β) :
    (Except.ok x >>= f) = f x := rfl

@[simp] lemma except_bind_error {α β ε : Type} (e : ε) (f : α → Except ε β) :
    ((Except.error e : Except ε α) >>= f) = .error e := rfl

/-- C9: for every RGB raster whose length is a multiple of 3, every 6-byte
colour-key range and every 3-byte replacement key, `FixColour` succeeds and
returns exactly the pixel map that replaces the in-range pixels by the key
colour and keeps every other pixel, with output length equal to the input
length. -/
theorem fixcolour_colour_key (data : List ℕ) (r1 r9 g1 g9 b1 b9 : ℕ)
    (fix : List ℕ) (h3 : data.length % 3 = 0) (hfix : fix.length = 3) :
    FixColour data [r1, r9, g1, g9, b1, b9] fix =
      some (colourKeySpecMap r1 r9 g1 g9 b1 b9 fix data) ∧
    (colourKeySpecMap r1 r9 g1 g9 b1 b9 fix data).length = data.length := by
  have h := fixColourLoop_spec r1 r9 g1 g9 b1 b9 fix hfix data.length data le_rfl h3
  refine ⟨?_, h.2⟩
  simp [FixColour, h.1, h.2]

/-- Witness for C9 at the specification example: range R 250–255, G 0–5,
B 0–5, key colour (255, 5, 5); the pixel (252, 2, 1) is replaced and
(100, 100, 100) is kept. -/
theorem fixcolour_colour_key_witness :
    ([252, 2, 1, 100, 100, 100] : List ℕ).length % 3 = 0 ∧
    ([255, 5, 5] : List ℕ).length = 3 ∧
    (FixColour [252, 2, 1, 100, 100, 100] [250, 255, 0, 5, 0, 5] [255, 5, 5] =
      some (colourKeySpecMap 250 255 0 5 0 5 [255, 5, 5] [252, 2, 1, 100, 100, 100]) ∧
     (colourKeySpecMap 250 255 0 5 0 5 [255, 5, 5] [252, 2, 1, 100, 100, 100]).length =
      ([252, 2, 1, 100, 100, 100] : List ℕ).length) ∧
    colourKeySpecMap 250 255 0 5 0 5 [255, 5, 5] [252, 2, 1, 100, 100, 100] =
      [255, 5, 5, 100, 100, 100] :=
  ⟨by decide, by decide,
   fixcolour_colour_key [252, 2, 1, 100, 100, 100] 250 255 0 5 0 5 [255, 5, 5]
     (by decide) (by decide), by decide⟩

/-- C2 (counterexample): a `Q` with no matching `q` is not a recoverable
no-op; `self.saved_state.pop()` on the empty list raises IndexError and the
remaining operators are not processed — the whole page fails instead of
yielding a command list. -/
theorem Q_underflow_not_recovered :
    ProcessOperators env0 St.init [Op.Qop, Op.RG 0 0 1] = .error () := by decide

/-- C2 (amended): whenever the save stack is empty, a `Q` operator makes
`ProcessOperators` raise (pop from empty list), aborting the remaining
operators, for every environment, state and continuation. -/
theorem Q_underflow_errors (env : Env) (st : St) (rest : List Op)
    (h : st.saved = []) : run env st (Op.Qop :: rest) = .error () := by
  simp [run, step, h, except_bind_error]

/-- Witness for the amended C2 at the initial state. -/
theorem Q_underflow_errors_witness :
    St.init.saved = [] ∧ run env0 St.init [Op.Qop] = .error () :=
  ⟨rfl, Q_underflow_errors env0 St.init [] rfl⟩

/-- C3: an image XObject with an unsupported colour space (here
`/DeviceCMYK`) does not yield a skipped bitmap; the final
`dlist.append(["DrawBitmap", (bitmap, …)])` reads the never-assigned local
`bitmap`, the UnboundLocalError propagates out of `ProcessOperators`, and
the commands for the rest of the page are lost. -/
theorem cmyk_image_aborts_page :
    run env3 St.init [Op.doOp "im", Op.other "zz"] = .error () ∧
    InsertXObject env3 imgCMYK = .error () := by
  refine ⟨by decide, by decide⟩

/-- C4 (counterexample): a `ConcatTransform(0,0,0,0,5,7)` immediately
followed by a DrawBitmap is not rewritten to
`ConcatTransform(1,0,0,1,5,7)`; the pass divides the transform components
by the zero scales and raises ZeroDivisionError. -/
theorem transformFold_zero_scale_errors :
    transformFold [Cmd.concatTransform 0 0 0 0 5 7,
      Cmd.drawBitmap bmp0 0 0 3 4] = .error () ∧
    transformFold [Cmd.concatTransform 0 0 0 0 5 7,
      Cmd.drawBitmap bmp0 0 0 3 4] ≠
      .ok [Cmd.concatTransform 1 0 0 1 5 7, Cmd.drawBitmap bmp0 0 0 0 0] := by
  refine ⟨by decide, by decide⟩

/-- C4 (amended): wherever `ConcatTransform(sx,0,0,sy,tx,ty)` with nonzero
`sx`, `sy` is immediately followed by `DrawBitmap(bmp,x,y,w0,h0)`, the pass
rewrites the pair to `ConcatTransform(1,0,0,1,tx,ty)` followed by
`DrawBitmap(bmp,x,-sy,sx,sy)` (raising ZeroDivisionError when `sx` or `sy`
is zero); a ConcatTransform not immediately followed by a DrawBitmap,
including one ending the list, is left unmodified. -/
theorem transformFold_amended :
    (∀ (sx sy tx ty : ℚ) (bmp : Bitmap) (x y w0 h0 : ℚ) (rest out : List Cmd),
      sx ≠ 0 → sy ≠ 0 → transformFold rest = .ok out →
      transformFold (Cmd.concatTransform sx 0 0 sy tx ty ::
          Cmd.drawBitmap bmp x y w0 h0 :: rest) =
        .ok (Cmd.concatTransform 1 0 0 1 tx ty ::
          Cmd.drawBitmap bmp x (-sy) sx sy :: out)) ∧
    (∀ (a b c d e f : ℚ) (c2 : Cmd) (rest : List Cmd),
      c2.isDrawBitmap = false →
      transformFold (Cmd.concatTransform a b c d e f :: c2 :: rest) =
        (transformFold (c2 :: rest)).map
          (fun l => Cmd.concatTransform a b c d e f :: l)) ∧
    (∀ (a b c d e f : ℚ),
      transformFold [Cmd.concatTransform a b c d e f] =
        .ok [Cmd.concatTransform a b c d e f]) := by
  refine ⟨?_, ?_, fun a b c d e f => rfl⟩
  · intro sx sy tx ty bmp x y w0 h0 rest out hsx hsy hrest
    simp [transformFold, hsx, hsy, hrest, zero_div, except_bind_ok]
  · intro a b c d e f c2 rest h
    cases c2 <;> simp_all [transformFold, Cmd.isDrawBitmap] <;>
      cases htf : transformFold _ <;>
        simp [htf, Except.map, except_bind_ok, except_bind_error]

/-- Witness for the amended C4: the pair with scales (2, 3) folds to unit
scales and destination size (2, 3). -/
theorem transformFold_amended_witness :
    (2 : ℚ) ≠ 0 ∧ (3 : ℚ) ≠ 0 ∧ transformFold ([] : List Cmd) = .ok [] ∧
    transformFold [Cmd.concatTransform 2 0 0 3 5 7,
      Cmd.drawBitmap bmp0 0 0 9 9] =
      .ok [Cmd.concatTransform 1 0 0 1 5 7, Cmd.drawBitmap bmp0 0 (-3) 2 3] :=
  ⟨by norm_num, by norm_num, rfl,
   transformFold_amended.1 2 3 5 7 bmp0 0 0 9 9 [] [] (by norm_num) (by norm_num) rfl⟩

/-- C5: the de-indexer does not unpack depth-2 and depth-4 samples in
big-endian bit order.  At depth 2 the byte 0x1B (samples 0,1,2,3) is
unpacked as four copies of `0x1B & 3 = 3` (operator precedence:
`d & 12 >> 2` is `d & (12 >> 2)`), and at depth 4 the byte 0x12 is written
low nibble first; depths 1 and 8 agree with the specification, including
the depth-8 identity-palette round trip. -/
theorem deindex_depth2_depth4_divergence :
    DeindexImage 4 1 [27] 2 4 idPal4 3 =
      [3, 3, 3, 3, 3, 3, 3, 3, 3, 3, 3, 3] ∧
    DeindexImageSpec [27] 2 idPal4 3 =
      [0, 0, 0, 1, 1, 1, 2, 2, 2, 3, 3, 3] ∧
    DeindexImage 4 1 [27] 2 4 idPal4 3 ≠ DeindexImageSpec [27] 2 idPal4 3 ∧
    DeindexImage 2 1 [18] 4 16 idPal16 3 = [2, 2, 2, 1, 1, 1] ∧
    DeindexImageSpec [18] 4 idPal16 3 = [1, 1, 1, 2, 2, 2] ∧
    DeindexImage 2 1 [18] 4 16 idPal16 3 ≠ DeindexImageSpec [18] 4 idPal16 3 ∧
    DeindexImage 3 1 [0, 1, 2] 8 256 idPal256 3 =
      [0, 0, 0, 1, 1, 1, 2, 2, 2] ∧
    DeindexImage 3 1 [0, 1, 2] 8 256 idPal256 3 =
      DeindexImageSpec [0, 1, 2] 8 idPal256 3 ∧
    DeindexImage 8 1 [128] 1 2 bwPalette 3 =
      DeindexImageSpec [128] 1 bwPalette 3 := by
  refine ⟨by decide, by decide, by decide, by decide, by decide, by decide,
    by decide, by decide, by decide⟩

/-- C7: the `K` and `k` operators store as stroke/fill colour exactly the
rounded triple R = (1−C)(1−K)·255, G = (1−M)(1−K)·255, B = (1−Y)(1−K)·255,
and in particular CMYK (0,0,0,1) converts to RGB (0,0,0) and CMYK (0,0,0,0)
to RGB (255,255,255). -/
theorem cmyk_operators_set_rgb :
    (∀ (env : Env) (st : St) (c m y k : ℚ),
      step env st (Op.K c m y k) = .ok ({ st with gstate := { st.gstate with
        strokeRGB := ⟨pyRound ((1 - c) * (1 - k) * 255),
                      pyRound ((1 - m) * (1 - k) * 255),
                      pyRound ((1 - y) * (1 - k) * 255)⟩ } }, []) ∧
      step env st (Op.kLow c m y k) = .ok ({ st with gstate := { st.gstate with
        fillRGB := ⟨pyRound ((1 - c) * (1 - k) * 255),
                    pyRound ((1 - m) * (1 - k) * 255),
                    pyRound ((1 - y) * (1 - k) * 255)⟩ } }, [])) ∧
    ConvertCMYK 0 0 0 1 = (0, 0, 0) ∧
    ConvertCMYK 0 0 0 0 = (255, 255, 255) :=
  ⟨fun _env _st _c _m _y _k => ⟨rfl, rfl⟩,
   by with_unfolding_all rfl, by with_unfolding_all rfl⟩

/-- C10 (counterexample): a `TJ` string element shown before any `Tf` does
not raise out of the interpreter: the AttributeError from font resolution
is caught by the bare `except` of the `TJ` handler, both attempts fail, and
the element is silently skipped — the run succeeds with no commands. -/
theorem tj_no_font_swallowed :
    (run env0 St.init [Op.BT, Op.TJ [TJEl.str [72, 105]]]).map (fun p => p.2) =
      .ok [] := by decide

end Viewer

namespace Viewer

lemma SetFontSt_saved (st : St) (p : Option String) (s : Option ℚ) :
    (SetFontSt st p s).1.saved = st.saved ∧
    (SetFontSt st p s).1.gstate = st.gstate := by
  cases p with
  | none => exact ⟨rfl, rfl⟩
  | some f =>
    cases s with
    | none =>
      simp only [SetFontSt, markMissing]
      split <;> (try split) <;> exact ⟨rfl, rfl⟩
    | some sz =>
      simp only [SetFontSt, markMissing]
      split <;> (try split) <;> exact ⟨rfl, rfl⟩

lemma drawItems_saved (env : Env) (f : Font) :
    ∀ (l : List (List ℕ)) (st : St),
      (drawItems env f st l).1.saved = st.saved := by
  intro l
  induction l with
  | nil => intro st; rfl
  | cons it rest ih =>
    intro st
    simp only [drawItems]
    exact (ih _).trans rfl

lemma DrawTextString_saved (env : Env) (st : St) (t : List ℕ) :
    (DrawTextString env st t).1.saved = st.saved := by
  unfold DrawTextString
  rcases h1 : SetFontSt st st.gstate.font st.gstate.fontSize with ⟨st1, r1⟩
  have hs1 : st1.saved = st.saved := by
    have := (SetFontSt_saved st st.gstate.font st.gstate.fontSize).1
    rw [h1] at this; exact this
  cases r1 with
  | error e => simpa using hs1
  | ok f0raw =>
    dsimp only
    rcases h2 : SetFontSt st1 st1.gstate.font st1.gstate.fontSize with ⟨st2, r2⟩
    have hs2 : st2.saved = st1.saved := by
      have := (SetFontSt_saved st1 st1.gstate.font st1.gstate.fontSize).1
      rw [h2] at this; exact this
    cases r2 with
    | error e => simpa using hs2.trans hs1
    | ok f1raw =>
      simpa using (drawItems_saved env _ _ st2).trans (hs2.trans hs1)

lemma tjShow_saved (env : Env) (st : St) (s : List ℕ) :
    (tjShow env st s).1.saved = st.saved := by
  unfold tjShow
  rcases h1 : DrawTextString env st s with ⟨st1, r1⟩
  have hs1 : st1.saved = st.saved := by
    have := DrawTextString_saved env st s
    rw [h1] at this; exact this
  cases r1 with
  | ok cs => simpa using hs1
  | error e =>
    dsimp only
    rcases h2 : DrawTextString env st1 (List.replicate s.length 63) with ⟨st2, r2⟩
    have hs2 : st2.saved = st1.saved := by
      have := DrawTextString_saved env st1 (List.replicate s.length 63)
      rw [h2] at this; exact this
    cases r2 with
    | ok cs => simpa using hs2.trans hs1
    | error e2 => simpa using hs2.trans hs1

lemma tjRun_saved (env : Env) :
    ∀ (arr : List TJEl) (st : St), (tjRun env st arr).1.saved = st.saved := by
  intro arr
  induction arr with
  | nil => intro st; rfl
  | cons el rest ih =>
    intro st
    cases el with
    | num q => simpa [tjRun] using ih st
    | str s =>
      simp only [tjRun]
      exact (ih _).trans (tjShow_saved env st s)

end Viewer

namespace Viewer

lemma step_q_eq (env : Env) (st : St) :
    step env st .q = .ok ({ st with saved := st.gstate :: st.saved }, [.pushState]) := rfl

lemma step_Q_cons (env : Env) (st : St) (g0 : pdfState) (rest : List pdfState)
    (h : st.saved = g0 :: rest) :
    step env st .Qop = .ok ({ st with gstate := g0, saved := rest }, [.popState]) := by
  simp [step, h]

lemma DrawTextString_match_saved (env : Env) (stq : St) (s : List ℕ)
    (st2 : St) (cs : List Cmd)
    (h : (match DrawTextString env stq s with
          | (st1, Except.ok cs) => Except.ok (st1, cs)
          | (_, Except.error e) => Except.error e) = Except.ok (st2, cs)) :
    st2.saved = stq.saved := by
  rcases hd : DrawTextString env stq s with ⟨st1, r1⟩
  rw [hd] at h
  cases r1 with
  | error e => simp at h
  | ok cs1 =>
    simp at h
    have hs := DrawTextString_saved env stq s
    rw [hd] at hs
    rw [← h.1]
    exact hs

lemma step_saved_other (env : Env) (st : St) (op : Op) (st2 : St) (cs : List Cmd)
    (hq : op ≠ .q) (hQ : op ≠ .Qop) (h : step env st op = .ok (st2, cs)) :
    st2.saved = st.saved := by
  cases op with
  | q => exact absurd rfl hq
  | Qop => exact absurd rfl hQ
  | cm a b c d e f => simp [step] at h; rw [← h.1]
  | RG r g b => simp [step] at h; rw [← h.1]
  | rg r g b => simp [step] at h; rw [← h.1]
  | K c m y k => simp [step] at h; rw [← h.1]
  | kLow c m y k => simp [step] at h; rw [← h.1]
  | G v => simp [step] at h; rw [← h.1]
  | gLow v => simp [step] at h; rw [← h.1]
  | w v => simp [step] at h; rw [← h.1]
  | J v =>
    simp only [step] at h
    split_ifs at h <;> (simp at h; rw [← h.1])
  | jLow v =>
    simp only [step] at h
    split_ifs at h <;> (simp at h; rw [← h.1])
  | dOp arr phase => simp [step] at h; rw [← h.1]
  | pathOp kind coords => simp [step] at h; rw [← h.1]
  | W star => simp [step] at h; rw [← h.1]
  | paint act =>
    simp only [step] at h
    cases hdp : DrawPath st.gstate st.path act with
    | error e => rw [hdp] at h; simp at h
    | ok cs2 =>
      rw [hdp] at h
      cases hn : st.ncpr with
      | none => simp [hn] at h
      | some b =>
        cases b <;> simp [hn] at h <;> rw [← h.1]
  | BT => simp [step] at h; rw [← h.1]
  | ET => simp [step] at h; rw [← h.1]
  | Tm a b c d e f => simp [step] at h; rw [← h.1]
  | TL v => simp [step] at h; rw [← h.1]
  | Tc v => simp [step] at h; rw [← h.1]
  | Tw v => simp [step] at h; rw [← h.1]
  | Tz v => simp [step] at h; rw [← h.1]
  | Ts v => simp [step] at h; rw [← h.1]
  | Td dx dy => simp [step] at h; rw [← h.1]
  | Tf name size =>
    simp only [step] at h
    cases hf : env.fonts name with
    | none => rw [hf] at h; simp at h
    | some base => rw [hf] at h; simp at h; rw [← h.1]
  | Tstar => simp [step] at h; rw [← h.1]
  | Tj s =>
    simp only [step] at h
    exact DrawTextString_match_saved env st (latin1ToUtf8 s) st2 cs h
  | quoteOp s =>
    simp only [step] at h
    exact (DrawTextString_match_saved env _ s st2 cs h).trans rfl
  | dquoteOp aw ac s =>
    simp only [step] at h
    exact (DrawTextString_match_saved env _ s st2 cs h).trans rfl
  | TJ arr =>
    simp only [step] at h
    simp at h
    have hs := tjRun_saved env arr st
    rw [h] at hs
    exact hs
  | doOp name =>
    simp only [step] at h
    cases hx : env.xobjects name with
    | none => rw [hx] at h; simp at h
    | some xo =>
      rw [hx] at h
      cases xo with
      | nonImage => simp at h; rw [← h.1]
      | image img =>
        dsimp only at h
        cases hins : InsertXObject env img with
        | error e => rw [hins] at h; simp at h
        | ok cs2 => rw [hins] at h; simp at h; rw [← h.1]
  | other name => simp [step] at h; rw [← h.1]

end Viewer

namespace Viewer

lemma run_cons_ok {env : Env} {st : St} {op : Op} {rest : List Op} {st2 : St}
    {cmds : List Cmd} (h : run env st (op :: rest) = .ok (st2, cmds)) :
    ∃ st1 c1 c2, step env st op = .ok (st1, c1) ∧
      run env st1 rest = .ok (st2, c2) ∧ cmds = c1 ++ c2 := by
  rw [run] at h
  cases hs : step env st op with
  | error e => rw [hs] at h; simp at h
  | ok p =>
    rw [hs] at h
    simp only [except_bind_ok] at h
    cases hr : run env p.1 rest with
    | error e => rw [hr] at h; simp at h
    | ok q =>
      rw [hr] at h
      simp at h
      refine ⟨p.1, p.2, q.2, ?_, ?_, h.2.symm⟩
      · rfl
      · rw [hr, ← h.1]

lemma run_append_ok {env : Env} :
    ∀ (xs : List Op) (ys : List Op) (st st2 : St) (cmds : List Cmd),
      run env st (xs ++ ys) = .ok (st2, cmds) →
      ∃ stm c1 c2, run env st xs = .ok (stm, c1) ∧ run env stm ys = .ok (st2, c2) := by
  intro xs
  induction xs with
  | nil =>
    intro ys st st2 cmds h
    exact ⟨st, [], cmds, rfl, by simpa using h⟩
  | cons op rest ih =>
    intro ys st st2 cmds h
    rw [List.cons_append] at h
    obtain ⟨st1, c1, c2, hstep, hrest, hcs⟩ := run_cons_ok h
    obtain ⟨stm, d1, d2, hxs, hys⟩ := ih ys st1 st2 c2 hrest
    refine ⟨stm, c1 ++ d1, d2, ?_, hys⟩
    rw [run, hstep]
    simp [hxs]

lemma run_saved_frame (env : Env) :
    ∀ (ops : List Op) (st : St) (e s : List pdfState) (b : ℕ) (st2 : St)
      (cmds : List Cmd),
      st.saved = e ++ s → finalDepth e.length ops = some b →
      run env st ops = .ok (st2, cmds) →
      ∃ e2 : List pdfState, st2.saved = e2 ++ s ∧ e2.length = b := by
  intro ops
  induction ops with
  | nil =>
    intro st e s b st2 cmds hsv hfd hrun
    simp [finalDepth] at hfd
    simp [run] at hrun
    exact ⟨e, by rw [← hrun.1]; exact hsv, hfd⟩
  | cons op rest ih =>
    intro st e s b st2 cmds hsv hfd hrun
    obtain ⟨st1, c1, c2, hstep, hrest, _⟩ := run_cons_ok hrun
    cases hop : op with
    | q =>
      rw [hop] at hstep
      rw [step_q_eq env st] at hstep
      simp at hstep
      have hsv1 : st1.saved = (st.gstate :: e) ++ s := by
        rw [← hstep.1]
        simp [hsv]
      have hfd1 : finalDepth (st.gstate :: e).length rest = some b := by
        rw [hop] at hfd
        simpa [finalDepth] using hfd
      exact ih st1 (st.gstate :: e) s b st2 c2 hsv1 hfd1 hrest
    | Qop =>
      rw [hop] at hfd
      cases e with
      | nil => simp [finalDepth] at hfd
      | cons gh e0 =>
        have hsvc : st.saved = gh :: (e0 ++ s) := by simpa using hsv
        rw [hop, step_Q_cons env st gh (e0 ++ s) hsvc] at hstep
        simp at hstep
        have hsv1 : st1.saved = e0 ++ s := by rw [← hstep.1]
        have hfd1 : finalDepth e0.length rest = some b := by
          simpa [finalDepth] using hfd
        exact ih st1 e0 s b st2 c2 hsv1 hfd1 hrest
    | _ =>
      rw [hop] at hstep
      have hsv1 : st1.saved = e ++ s := by
        rw [step_saved_other env st _ st1 c1 (by simp) (by simp) hstep]
        exact hsv
      have hfd1 : finalDepth e.length rest = some b := by
        rw [hop] at hfd
        simpa [finalDepth] using hfd
      exact ih st1 e s b st2 c2 hsv1 hfd1 hrest

end Viewer

namespace Viewer

/-- C1: for every operator stream `ops` with well-formed `q … Q` nesting
(`finalDepth 0 ops = some 0`), the graphics state observed immediately
after the `Q` matching an enclosing `q` is field-for-field equal to the
state immediately before that `q`, whatever state mutations (colour, line,
dash, text, clipping) happen in between.  The deep copy taken by the `q`
handler is a value in this embedding, so the saved state shares no mutable
substructure with the live one; the theorem shows the restored state is
exactly the caller's. -/
theorem q_Q_restores_gstate (env : Env) (ops : List Op) (st st2 : St)
    (cmds : List Cmd) (hbal : finalDepth 0 ops = some 0)
    (hrun : run env st (Op.q :: (ops ++ [Op.Qop])) = .ok (st2, cmds)) :
    st2.gstate = st.gstate := by
  obtain ⟨st1, c1, c2, hstep, hrest, _⟩ := run_cons_ok hrun
  rw [step_q_eq env st] at hstep
  have hst1 : st1 = { st with saved := st.gstate :: st.saved } := by
    have := hstep
    simp at this
    exact this.1.symm
  obtain ⟨stm, d1, d2, hxs, hys⟩ := run_append_ok ops [Op.Qop] st1 st2 c2 hrest
  have hsv0 : st1.saved = [] ++ (st.gstate :: st.saved) := by rw [hst1]; rfl
  obtain ⟨e2, hsv, hlen⟩ :=
    run_saved_frame env ops st1 [] (st.gstate :: st.saved) 0 stm d1 hsv0 hbal hxs
  have he2 : e2 = [] := List.length_eq_zero.mp hlen
  rw [he2] at hsv
  simp at hsv
  obtain ⟨stq, q1, q2, hstepQ, hrunNil, _⟩ := run_cons_ok hys
  rw [step_Q_cons env stm st.gstate st.saved hsv] at hstepQ
  simp at hstepQ
  simp [run] at hrunNil
  rw [← hrunNil.1, ← hstepQ.1]

/-- Witness for C1: the bracket `q; 1 0 0 RG; Q` around a colour mutation
restores the initial state. -/
theorem q_Q_restores_gstate_witness :
    finalDepth 0 [Op.RG 1 0 0] = some 0 ∧
    run env0 St.init (Op.q :: ([Op.RG 1 0 0] ++ [Op.Qop])) =
      .ok (St.init, [Cmd.pushState, Cmd.popState]) ∧
    St.init.gstate = St.init.gstate :=
  ⟨by decide, by decide,
   q_Q_restores_gstate env0 [Op.RG 1 0 0] St.init St.init
     [Cmd.pushState, Cmd.popState] (by decide) (by decide)⟩

end Viewer

namespace Viewer

/-- C8: a rectangle path operator with negative height resolves to exactly
the same command list — in particular the same normalized AddRectangle
(x, y, w, h) — as the equivalent positive-height rectangle with adjusted
origin: `re(x, y, w, h)` with `h < 0` matches `re(x, y+h, w, −h)`. -/
theorem re_negative_height_normalises (g : pdfState) (x y w h : ℚ)
    (act : PaintAct) (hh : h < 0) :
    DrawPath g [⟨[x, y, w, h], .re⟩] act =
      DrawPath g [⟨[x, y + h, w, -h], .re⟩] act := by
  have h1 : ¬(-h < 0) := by linarith
  have harg : -(y + h) - -h = -y := by ring
  unfold DrawPath
  cases act <;>
    simp [PaintAct.closes, drawSegs, hh, h1, harg]

/-- Witness for C8 at the specification example: `re(0,0,10,-5)` and
`re(0,-5,10,5)` produce the same resolved command list. -/
theorem re_negative_height_normalises_witness :
    (-5 : ℚ) < 0 ∧
    DrawPath pdfState.init [⟨[0, 0, 10, -5], .re⟩] .smallF =
      DrawPath pdfState.init [⟨[0, 0 + -5, 10, -(-5)], .re⟩] .smallF :=
  ⟨by norm_num,
   re_negative_height_normalises pdfState.init 0 0 10 (-5) .smallF (by norm_num)⟩

lemma DrawTextString_nofont (env : Env) (st : St) (t : List ℕ)
    (h : st.gstate.font = none) :
    DrawTextString env st t = ({ st with knownfont := true }, .error ()) := by
  unfold DrawTextString SetFontSt
  rw [h]

lemma tjShow_nofont (env : Env) (st : St) (s : List ℕ)
    (h : st.gstate.font = none) :
    tjShow env st s = ({ st with knownfont := true }, []) := by
  unfold tjShow
  simp only [DrawTextString_nofont, h]

lemma tjRun_nofont (env : Env) :
    ∀ (arr : List TJEl) (st : St), st.gstate.font = none →
      ∃ st2 : St, tjRun env st arr = (st2, []) ∧ st2.gstate = st.gstate := by
  intro arr
  induction arr with
  | nil => intro st h; exact ⟨st, rfl, rfl⟩
  | cons el rest ih =>
    intro st h
    cases el with
    | num q =>
      obtain ⟨st2, hr, hg⟩ := ih st h
      exact ⟨st2, by simpa [tjRun] using hr, hg⟩
    | str s =>
      have hshow := tjShow_nofont env st s h
      obtain ⟨st2, hr, hg⟩ := ih { st with knownfont := true } h
      refine ⟨st2, ?_, hg⟩
      simp [tjRun, hshow, hr]

/-- C10 (amended): showing text with no font set (`pdfState.font` is
`None`) raises an AttributeError from `SetFont` for the `Tj`, `'` and `"`
operators, aborting the page; for string elements of a `TJ` array the same
exception is caught by the handler's bare `except`, both fallback attempts
fail, and the elements are skipped with no DrawText and no default font
substituted. -/
theorem no_font_text_amended :
    (∀ (env : Env) (st : St) (s : List ℕ) (rest : List Op),
      st.gstate.font = none →
      run env st (Op.Tj s :: rest) = .error () ∧
      run env st (Op.quoteOp s :: rest) = .error () ∧
      (∀ aw ac : ℚ, run env st (Op.dquoteOp aw ac s :: rest) = .error ())) ∧
    (∀ (env : Env) (st : St) (arr : List TJEl),
      st.gstate.font = none →
      ∃ st2 : St, step env st (Op.TJ arr) = .ok (st2, []) ∧
        st2.gstate = st.gstate) := by
  constructor
  · intro env st s rest h
    refine ⟨?_, ?_, fun aw ac => ?_⟩
    · rw [run, step]
      simp only [DrawTextString_nofont, h, except_bind_error]
    · rw [run, step]
      simp only [DrawTextString_nofont, h, except_bind_error]
    · rw [run, step]
      simp only [DrawTextString_nofont, h, except_bind_error]
  · intro env st arr h
    obtain ⟨st2, hr, hg⟩ := tjRun_nofont env arr st h
    refine ⟨st2, ?_, hg⟩
    simp only [step, hr]

/-- Witness for the amended C10 at the initial (fontless) state. -/
theorem no_font_text_amended_witness :
    St.init.gstate.font = none ∧
    (run env0 St.init (Op.Tj [72] :: []) = .error () ∧
     run env0 St.init (Op.quoteOp [72] :: []) = .error () ∧
     (∀ aw ac : ℚ, run env0 St.init (Op.dquoteOp aw ac [72] :: []) = .error ())) ∧
    (∃ st2 : St, step env0 St.init (Op.TJ [TJEl.str [72]]) = .ok (st2, []) ∧
      st2.gstate = St.init.gstate) :=
  ⟨rfl, no_font_text_amended.1 env0 St.init [72] [] rfl,
   no_font_text_amended.2 env0 St.init [TJEl.str [72]] rfl⟩

end Viewer

namespace Viewer

lemma SetFontSt_val (fn : String) (sz : ℚ) :
    ∃ F : Font, ∀ st : St, (SetFontSt st (some fn) (some sz)).2 = .ok F :=
  ⟨⟨max 1 sz, (pickFamily fn.toLower).1,
    if containsStr fn.toLower "oblique" || containsStr fn.toLower "italic"
      then FontStyle.italic else FontStyle.normal,
    if containsStr fn.toLower "bold" then FontWeight.bold else FontWeight.normal,
    (pickFamily fn.toLower).2.1⟩, fun _st => rfl⟩

lemma drawItems_single (env : Env) (f : Font) (st : St) (it : List ℕ) :
    drawItems env f st [it] =
      ((DrawTextItem env st it f).1, [(DrawTextItem env st it f).2]) := rfl

lemma DrawTextString_ws0 (env : Env) (fn : String) (sz : ℚ)
    (hrl : env.haveRlWidth = false) :
    ∃ F : Font, ∀ (st : St) (t : List ℕ),
      st.gstate.font = some fn → st.gstate.fontSize = some sz →
      st.gstate.wordSpacing = 0 →
      ∃ st2 : St,
        DrawTextString env st t =
          (st2, .ok [Cmd.setFont (F.scaleBy env.fontScaleSize) st.gstate.GetFillRGBA,
            Cmd.drawText t st.gstate.textMatrix.e
              (-(st.gstate.textMatrix.f + st.gstate.textRise) -
               ((env.extent t (F.scaleBy env.fontScaleMetrics)).2.1 -
                (env.extent t (F.scaleBy env.fontScaleMetrics)).2.2.1))]) ∧
        st2.gstate.textMatrix.e =
          st.gstate.textMatrix.e +
            ((env.extent t (F.scaleBy env.fontScaleMetrics)).1 + 0) ∧
        st2.gstate.font = st.gstate.font ∧
        st2.gstate.fontSize = st.gstate.fontSize ∧
        st2.gstate.wordSpacing = st.gstate.wordSpacing := by
  obtain ⟨F, hF⟩ := SetFontSt_val fn sz
  refine ⟨F, ?_⟩
  intro st t hf hsz hws
  rcases hA : SetFontSt st (some fn) (some sz) with ⟨stA, rA⟩
  have h1a : rA = .ok F := by have := hF st; rw [hA] at this; exact this
  subst h1a
  have h1b : stA.gstate = st.gstate := by
    have := (SetFontSt_saved st (some fn) (some sz)).2
    rw [hA] at this; exact this
  rcases hB : SetFontSt stA (some fn) (some sz) with ⟨stB, rB⟩
  have h2a : rB = .ok F := by have := hF stA; rw [hB] at this; exact this
  subst h2a
  have h2b : stB.gstate = stA.gstate := by
    have := (SetFontSt_saved stA (some fn) (some sz)).2
    rw [hB] at this; exact this
  have hAf : stA.gstate.font = some fn := by rw [h1b]; exact hf
  have hAsz : stA.gstate.fontSize = some sz := by rw [h1b]; exact hsz
  have hBws : stB.gstate.wordSpacing = 0 := by rw [h2b, h1b]; exact hws
  unfold DrawTextString
  rw [hf, hsz, hA]
  dsimp only
  rw [hAf, hAsz, hB]
  dsimp only
  simp only [drawItems_single, DrawTextItem, hws, hBws, hrl, gt_iff_lt,
    lt_self_iff_false, if_false, Bool.false_and, Bool.false_eq_true, h2b, h1b]
  refine ⟨_, rfl, ?_, ?_, ?_, ?_⟩ <;>
    simp [hws, hf, hsz, hBws, h2b, h1b]

end Viewer

namespace Viewer

lemma tjRun_filter (env : Env) :
    ∀ (arr : List TJEl) (st : St),
      tjRun env st arr = tjRun env st (arr.filter TJEl.isStr) := by
  intro arr
  induction arr with
  | nil => intro st; rfl
  | cons el rest ih =>
    intro st
    cases el with
    | num q => simpa [tjRun, List.filter, TJEl.isStr] using ih st
    | str s => simp [tjRun, List.filter, TJEl.isStr, ih]

/-- C6 (counterexample): with word spacing 2 set, the single `TJ` string
element "a b" (one element, containing a space) produces two DrawText
commands, not one per string element. -/
theorem tj_runs_not_elements :
    (run env0 stWS [Op.TJ [TJEl.str [97, 32, 98]]]).map
      (fun p => p.2.countP Cmd.isDrawText) = .ok 2 ∧
    [TJEl.str [97, 32, 98]].countP TJEl.isStr = 1 := by
  refine ⟨by with_unfolding_all rfl, by decide⟩

/-- C6 (amended): the `TJ` handler ignores numeric kerning adjustments
entirely — interpreting a `TJ` array is identical to interpreting the array
with its numeric elements removed — and, when a font is set and word
spacing is zero, an array [string, number, string] emits exactly one
DrawText per string element (two in all) and advances the text x position
only by the two measured run widths; with positive word spacing a string
element yields one DrawText per space-delimited run instead. -/
theorem tj_amended :
    (∀ (env : Env) (st : St) (arr : List TJEl),
      step env st (Op.TJ arr) = .ok (tjRun env st arr)) ∧
    (∀ (env : Env) (st : St) (arr : List TJEl),
      tjRun env st arr = tjRun env st (arr.filter TJEl.isStr)) ∧
    (∀ (env : Env) (st : St) (fn : String) (sz : ℚ) (s1 s2 : List ℕ) (adj : ℚ),
      st.gstate.font = some fn → st.gstate.fontSize = some sz →
      st.gstate.wordSpacing = 0 → env.haveRlWidth = false →
      ∃ (st2 : St) (cs : List Cmd) (f0 : Font),
        tjRun env st [TJEl.str s1, TJEl.num adj, TJEl.str s2] = (st2, cs) ∧
        cs.countP Cmd.isDrawText = 2 ∧
        st2.gstate.textMatrix.e =
          st.gstate.textMatrix.e + (env.extent s1 f0).1 + (env.extent s2 f0).1) := by
  refine ⟨fun env st arr => rfl, fun env st arr => tjRun_filter env arr st, ?_⟩
  intro env st fn sz s1 s2 adj hf hsz hws hrl
  obtain ⟨F, hF⟩ := DrawTextString_ws0 env fn sz hrl
  obtain ⟨stC, hC, hCe, hCf, hCsz, hCws⟩ := hF st s1 hf hsz hws
  obtain ⟨stE, hE, hEe, hEf, hEsz, hEws⟩ :=
    hF stC s2 (hCf.trans hf) (hCsz.trans hsz) (hCws.trans hws)
  refine ⟨stE,
    ([Cmd.setFont (F.scaleBy env.fontScaleSize) st.gstate.GetFillRGBA,
      Cmd.drawText s1 st.gstate.textMatrix.e
        (-(st.gstate.textMatrix.f + st.gstate.textRise) -
          ((env.extent s1 (F.scaleBy env.fontScaleMetrics)).2.1 -
           (env.extent s1 (F.scaleBy env.fontScaleMetrics)).2.2.1))] ++
     ([Cmd.setFont (F.scaleBy env.fontScaleSize) stC.gstate.GetFillRGBA,
       Cmd.drawText s2 stC.gstate.textMatrix.e
         (-(stC.gstate.textMatrix.f + stC.gstate.textRise) -
           ((env.extent s2 (F.scaleBy env.fontScaleMetrics)).2.1 -
            (env.extent s2 (F.scaleBy env.fontScaleMetrics)).2.2.1))] ++ [])),
    F.scaleBy env.fontScaleMetrics, ?_, ?_, ?_⟩
  · simp only [tjRun, tjShow, hC, hE]
  · simp [Cmd.isDrawText]
  · rw [hEe, hCe]
    ring

/-- Witness for the amended C6 at a state with font set and zero word
spacing, and the example array [(Hi), −120, (Yo)]. -/
theorem tj_amended_witness :
    stF.gstate.font = some "Helvetica" ∧ stF.gstate.fontSize = some 12 ∧
    stF.gstate.wordSpacing = 0 ∧ env0.haveRlWidth = false ∧
    (∃ (st2 : St) (cs : List Cmd) (f0 : Font),
      tjRun env0 stF [TJEl.str [72, 105], TJEl.num (-120), TJEl.str [89, 111]] =
        (st2, cs) ∧
      cs.countP Cmd.isDrawText = 2 ∧
      st2.gstate.textMatrix.e =
        stF.gstate.textMatrix.e + (env0.extent [72, 105] f0).1 +
          (env0.extent [89, 111] f0).1) :=
  ⟨rfl, rfl, rfl, rfl,
   tj_amended.2.2 env0 stF "Helvetica" 12 [72, 105] [89, 111] (-120)
     rfl rfl rfl rfl⟩

end Viewer
